import Mathlib

/-!
Verification development for the single-file scheduler/promotion bot
(`src/main.py`).  The definitions below are a shallow embedding of the
parts of the program the claims are about:

* the job data model (`Job`, a value view of the `job_meta` dictionaries);
* the daily-counter table and `increment_daily_count` / `get_daily_count`;
* `render_placeholders`;
* the worker loop `run_job` (lines 687-754) including its `finally` block,
  with the Telegram transport abstracted as a success/failure oracle
  `sendOk : Nat → Bool` and external pause/stop button presses modelled as
  a schedule of actions applied at the top of each loop iteration (the
  point where the code re-reads the job and can observe them);
* `start_job` (lines 637-685) with its projected-cap pre-check;
* the `pause` / `stop` callback branches of `callback_query_handler`
  (lines 494-513);
* the count clamps of `create_job_card` (lines 390-396) and
  `runpromo_cmd` (lines 786-790);
* the `clone` branch (lines 542-554), modelled with an explicit heap of
  template lists so that Python's shallow `dict.copy()` aliasing is
  visible.

Observable effects (transport attempts, delivered messages, the sequence
of persisted `progress` values, save/cancel ordering, log events) are
collected in a `Trace` so the theorems can speak about them.
-/

/-- Status values a job dictionary's `status` field takes in the source. -/
inductive JobStatus where
  | queued
  | queued_to_run
  | running
  | paused
  | stopped
  | finished
deriving Repr, DecidableEq

/-- One template / promo record: `{"id", "type", "content", ...}`. -/
structure Template where
  tid : String
  ttype : String
  content : String
deriving Repr, DecidableEq

/-- Value view of one `job_meta` dictionary (the fields the modelled
operations read or write). -/
structure Job where
  job_id : String
  created_by : String
  chat_id : Int
  templates : List Template
  count : Int
  delay : Rat
  status : JobStatus
  progress : Nat
  start_at : Option Nat
  repeatPolicy : Option String
  target_name : String
  target_username : Option String
  target_first_name : Option String
  target_last_name : Option String
deriving Repr, DecidableEq

/-- Lookup in the `state["jobs"]` association table. -/
def findJob : List (String × Job) → String → Option Job
  | [], _ => none
  | (k, v) :: rest, jid => if k = jid then some v else findJob rest jid

/-- In-place mutation of the job dictionary stored under `jid`
(Python mutates the dict held in `state["jobs"]`). -/
def updateJobs (f : Job → Job) : List (String × Job) → String → List (String × Job)
  | [], _ => []
  | (k, v) :: rest, jid =>
      if k = jid then (k, f v) :: rest else (k, v) :: updateJobs f rest jid

/-- Lookup in the `state["daily_counts"]` table (one fixed UTC day, keyed
by chat id). -/
def findDaily : List (Int × Nat) → Int → Option Nat
  | [], _ => none
  | (k, v) :: rest, chat => if k = chat then some v else findDaily rest chat

/-- Store a value under a chat key, creating the entry if absent
(`state["daily_counts"][key] = ...`). -/
def setDaily : List (Int × Nat) → Int → Nat → List (Int × Nat)
  | [], chat, v => [(chat, v)]
  | (k, x) :: rest, chat, v =>
      if k = chat then (k, v) :: rest else (k, x) :: setDaily rest chat v

/-- Persistent bot state: the jobs table, the daily counters for the
current UTC day, and the two settings the modelled code reads. -/
structure BotState where
  jobs : List (String × Job)
  daily : List (Int × Nat)
  maxCount : Int
  perDayCap : Nat
deriving Repr, DecidableEq

/-- Embedding of `get_daily_count` (lines 120-121): missing key counts 0. -/
def getDaily (st : BotState) (chat : Int) : Nat :=
  (findDaily st.daily chat).getD 0

/-- Trace of the observable effects of a run: each transport call with
its outcome `(unit index, success)`, each delivered message
`(chat, text)`, the job's `progress` value at each `save_state` call,
the ordered save/cancel effects, and the `append_log` events. -/
structure Trace where
  attempts : List (Nat × Bool)
  sent : List (Int × String)
  progressLog : List Nat
  effects : List String
  logs : List String
deriving Repr, DecidableEq

/-- Bot state together with the observation trace. -/
structure Sys where
  st : BotState
  tr : Trace
deriving Repr, DecidableEq

/-- Embedding of `append_log`: records the event name. -/
def logEv (s : Sys) (e : String) : Sys :=
  { s with tr := { s.tr with logs := s.tr.logs ++ [e] } }

/-- Embedding of `save_state`: the whole state is written out; the trace
records the observed job's current `progress` and a `"save"` effect. -/
def saveState (s : Sys) (jid : String) : Sys :=
  { s with tr := { s.tr with
      progressLog := s.tr.progressLog ++
        (match findJob s.st.jobs jid with
         | some j => [j.progress]
         | none => []),
      effects := s.tr.effects ++ ["save"] } }

/-- Mutate the job stored under `jid` (dict mutation in place). -/
def updateJob (s : Sys) (jid : String) (f : Job → Job) : Sys :=
  { s with st := { s.st with jobs := updateJobs f s.st.jobs jid } }

/-- Embedding of `increment_daily_count` (lines 113-118): read-add-store
then `save_state`. -/
def incrementDailyCount (s : Sys) (jid : String) (chat : Int) (amount : Nat) : Sys :=
  saveState
    { s with st := { s.st with
        daily := setDaily s.st.daily chat (getDaily s.st chat + amount) } }
    jid

/-- Record one transport call and, on success, the delivered message. -/
def recordAttempt (s : Sys) (i : Nat) (ok : Bool) (chat : Int) (text : String) : Sys :=
  if ok then
    { s with tr := { s.tr with
        attempts := s.tr.attempts ++ [(i, true)],
        sent := s.tr.sent ++ [(chat, text)] } }
  else
    { s with tr := { s.tr with attempts := s.tr.attempts ++ [(i, false)] } }

/-- Prefix test on character lists. -/
def prefixTest : List Char → List Char → Bool
  | [], _ => true
  | _ :: _, [] => false
  | p :: ps, c :: cs => p == c && prefixTest ps cs

/-- Left-to-right, non-overlapping replacement of `pat` by `rep`, the
semantics of Python `str.replace` (fuel-driven so it reduces in the
kernel; fuel is the length of the scanned list). -/
def replaceFuel (pat rep : List Char) : List Char → Nat → List Char
  | s, 0 => s
  | [], _ + 1 => []
  | c :: cs, fuel + 1 =>
      if prefixTest pat (c :: cs) then
        rep ++ replaceFuel pat rep ((c :: cs).drop pat.length) fuel
      else
        c :: replaceFuel pat rep cs fuel

/-- Python `s.replace(pat, rep)` (for the non-empty patterns used by the
placeholder table; an empty pattern leaves `s` unchanged). -/
def pyReplace (s pat rep : String) : String :=
  if pat.data = [] then s
  else String.mk (replaceFuel pat.data rep.data s.data s.data.length)

/-- Embedding of `render_placeholders` (lines 124-136); the clock is
injected as the already-formatted date and time strings. -/
def renderPlaceholders (text : String) (job : Job) (dateS timeS : String) : String :=
  let usernameRep : String :=
    match job.target_username with
    | some u => if u = "" then "" else "@" ++ u
    | none => ""
  let t := pyReplace text "\x7btarget_name\x7d" job.target_name
  let t := pyReplace t "\x7busername\x7d" usernameRep
  let t := pyReplace t "\x7bfirst_name\x7d" ((job.target_first_name).getD "")
  let t := pyReplace t "\x7blast_name\x7d" ((job.target_last_name).getD "")
  let t := pyReplace t "\x7bdate\x7d" dateS
  let t := pyReplace t "\x7btime\x7d" timeS
  t

/-- Embedding of line 712:
`tpl = job["templates"][i % len(job["templates"])] if job.get("templates") else None`. -/
def selectTemplate (tpls : List Template) (i : Nat) : Option Template :=
  if tpls.isEmpty then none else tpls[i % tpls.length]?

/-- External control actions that can land between worker iterations. -/
inductive ExtAction where
  | pauseReq
  | stopReq
deriving Repr, DecidableEq

/-- Embedding of the `pause` branch of `callback_query_handler`
(lines 494-502): only a running job is paused. -/
def callbackPause (s : Sys) (jid : String) : Sys :=
  match findJob s.st.jobs jid with
  | none => s
  | some job =>
      if job.status = JobStatus.running then
        logEv (saveState (updateJob s jid (fun j => { j with status := JobStatus.paused })) jid)
          "job_paused"
      else s

/-- Embedding of the `stop` branch of `callback_query_handler`
(lines 504-513): unconditionally set `stopped`, persist, log, then
cancel the worker task if one is running. -/
def callbackStop (s : Sys) (jid : String) (taskRunning : Bool) : Sys :=
  match findJob s.st.jobs jid with
  | none => s
  | some _ =>
      let s := logEv (saveState (updateJob s jid (fun j => { j with status := JobStatus.stopped })) jid)
        "job_stopped"
      if taskRunning then
        { s with tr := { s.tr with effects := s.tr.effects ++ ["cancel"] } }
      else s

/-- Apply a batch of external button presses (worker task is running). -/
def applyActions (acts : List ExtAction) (jid : String) (s : Sys) : Sys :=
  acts.foldl
    (fun s a =>
      match a with
      | ExtAction.pauseReq => callbackPause s jid
      | ExtAction.stopReq => callbackStop s jid true)
    s

/-- One iteration `i` of the worker `for` loop (lines 697-735).  Returns
the new state and `true` when the loop continues to the next index. -/
def runIter (sendOk : Nat → Bool) (dateS timeS : String) (jid : String) (i : Nat)
    (s : Sys) : Sys × Bool :=
  match findJob s.st.jobs jid with
  | none =>
      (logEv (saveState s jid) "job_paused_or_stopped", false)
  | some job =>
      if job.status = JobStatus.paused ∨ job.status = JobStatus.stopped then
        (logEv (saveState s jid) "job_paused_or_stopped", false)
      else if s.st.perDayCap ≤ getDaily s.st job.chat_id then
        let s := updateJob s jid (fun j => { j with status := JobStatus.stopped })
        (logEv (saveState s jid) "job_stopped_group_cap_reached", false)
      else
        let text :=
          match selectTemplate job.templates i with
          | some tpl => renderPlaceholders tpl.content job dateS timeS
          | none => "[No template] (job " ++ jid ++ ")"
        let s := recordAttempt s i (sendOk i) job.chat_id text
        let s :=
          if sendOk i then
            logEv (incrementDailyCount s jid job.chat_id 1) "sent"
          else
            logEv s "send_failed"
        let s := saveState (updateJob s jid (fun j => { j with progress := i + 1 })) jid
        (s, true)

/-- The worker `for i in range(start, total)` loop; `rem` counts the
remaining indices.  External actions scheduled for index `i` are applied
just before the iteration re-reads the job (the code's observation
point). -/
def runLoopAux (sendOk : Nat → Bool) (sched : Nat → List ExtAction) (dateS timeS : String)
    (jid : String) : Nat → Nat → Sys → Sys
  | _, 0, s => s
  | i, rem + 1, s =>
      let s := applyActions (sched i) jid s
      let r := runIter sendOk dateS timeS jid i s
      if r.2 then runLoopAux sendOk sched dateS timeS jid (i + 1) rem r.1 else r.1

/-- The `finally` block of `run_job` (lines 736-754): mark `finished`
unless the job is `stopped`, then re-arm repeat jobs. -/
def runFinally (now : Nat) (jid : String) (s : Sys) : Sys :=
  match findJob s.st.jobs jid with
  | none => s
  | some job =>
      let s :=
        if job.status ≠ JobStatus.stopped then
          logEv (saveState (updateJob s jid (fun j => { j with status := JobStatus.finished })) jid)
            "job_finished"
        else s
      match findJob s.st.jobs jid with
      | none => s
      | some job2 =>
          if job2.repeatPolicy = some "daily" ∨ job2.repeatPolicy = some "hourly" then
            let nxt := if job2.repeatPolicy = some "daily" then now + 86400 else now + 3600
            logEv
              (saveState
                (updateJob s jid (fun j =>
                  { j with start_at := some nxt, status := JobStatus.queued, progress := 0 }))
                jid)
              "job_rescheduled"
          else s

/-- Embedding of `run_job` (lines 687-754): compute `total`, mark
`running`, run the loop from the persisted `progress`, then the
`finally` block. -/
def runJob (sendOk : Nat → Bool) (sched : Nat → List ExtAction) (dateS timeS : String)
    (now : Nat) (jid : String) (s : Sys) : Sys :=
  match findJob s.st.jobs jid with
  | none => s
  | some job =>
      let total : Int := min job.count s.st.maxCount
      let s := logEv (saveState (updateJob s jid (fun j => { j with status := JobStatus.running })) jid)
        "job_running"
      runFinally now jid
        (runLoopAux sendOk sched dateS timeS jid job.progress (total - (job.progress : Int)).toNat s)

/-- The projected-cap check and worker spawn of `start_job`
(lines 667-685): block the job when the current daily count plus its
full count exceeds the per-day group cap. -/
def startCapAndRun (sendOk : Nat → Bool) (sched : Nat → List ExtAction) (dateS timeS : String)
    (now : Nat) (jid : String) (job : Job) (s : Sys) : Sys :=
  if (s.st.perDayCap : Int) < (getDaily s.st job.chat_id : Int) + job.count then
    logEv (saveState (updateJob s jid (fun j => { j with status := JobStatus.stopped })) jid)
      "job_blocked_by_group_cap"
  else
    runJob sendOk sched dateS timeS now jid s

/-- Embedding of `start_job` (lines 637-685).  A running job is a no-op;
otherwise the job is marked `queued_to_run`; when `start_at` is set the
polling wait is modelled as one batch of external actions `waitActs`
after which a stopped or deleted job aborts; then the projected-cap
check runs and, if it passes, the worker. -/
def startJob (sendOk : Nat → Bool) (sched : Nat → List ExtAction) (waitActs : List ExtAction)
    (dateS timeS : String) (now : Nat) (jid : String) (s : Sys) : Sys :=
  match findJob s.st.jobs jid with
  | none => s
  | some job =>
      if job.status = JobStatus.running then s
      else
        let s := logEv
          (saveState (updateJob s jid (fun j => { j with status := JobStatus.queued_to_run })) jid)
          "job_start_initiated"
        match job.start_at with
        | some _ =>
            let s := applyActions waitActs jid s
            match findJob s.st.jobs jid with
            | none => logEv s "job_cancelled_before_start"
            | some jobW =>
                if jobW.status = JobStatus.stopped then
                  logEv s "job_cancelled_before_start"
                else startCapAndRun sendOk sched dateS timeS now jid jobW s
        | none => startCapAndRun sendOk sched dateS timeS now jid job s

/-- Count clamp of `create_job_card` (lines 390-394):
`if count < 1: count = 1` then `if count > max_count: count = max_count`. -/
def createJobCardClamp (count mx : Int) : Int :=
  let c := if count < 1 then 1 else count
  if mx < c then mx else c

/-- Count clamp of `runpromo_cmd` (lines 789-790): only
`if count > max_count: count = max_count`. -/
def runpromoClamp (count mx : Int) : Int :=
  if mx < count then mx else count

/-- Status of the observed job. -/
def jobStatusOf (s : Sys) (jid : String) : Option JobStatus :=
  (findJob s.st.jobs jid).map (fun j => j.status)

/-- Progress of the observed job. -/
def jobProgressOf (s : Sys) (jid : String) : Option Nat :=
  (findJob s.st.jobs jid).map (fun j => j.progress)

/-! ### Shallow-copy clone model

The `clone` branch (lines 542-554) does `new_job = job.copy()` — a
shallow Python dict copy.  Top-level fields become independent, but the
`templates` value is a *reference* to a list object, and that reference
is copied.  To make this observable, job records here hold an address
into an explicit heap of template lists. -/

/-- Heap of template-list objects; an address is an index. -/
structure TplHeap where
  cells : List (List Template)
deriving Repr, DecidableEq

/-- Dereference a templates-list address (out-of-range reads as `[]`). -/
def readTpls (h : TplHeap) (r : Nat) : List Template :=
  (h.cells[r]?).getD []

/-- Replace the cell at address `r`. -/
def setCell : List (List Template) → Nat → List Template → List (List Template)
  | [], _, _ => []
  | _ :: rest, 0, v => v :: rest
  | c :: rest, n + 1, v => c :: setCell rest n v

/-- In-place Python `list.append` through a reference. -/
def appendTpl (h : TplHeap) (r : Nat) (t : Template) : TplHeap :=
  { cells := setCell h.cells r (readTpls h r ++ [t]) }

/-- Reference-level view of a job dictionary: same fields as `Job`, but
`templates` is an address into the heap (Python stores a list reference). -/
structure JobRec where
  job_id : String
  created_by : String
  created_at : String
  chat_id : Int
  templatesRef : Nat
  count : Int
  delay : Rat
  status : JobStatus
  progress : Nat
  start_at : Option Nat
  repeatPolicy : Option String
deriving Repr, DecidableEq

/-- Embedding of the `clone` branch (lines 543-549): shallow-copy the
dict, then overwrite `job_id`, `created_by`, `created_at`, `status`,
`progress`.  All other fields — including the `templatesRef` list
reference — are copied as-is. -/
def cloneJob (job : JobRec) (newId byUser createdAt : String) : JobRec :=
  { job with
      job_id := newId,
      created_by := byUser,
      created_at := createdAt,
      status := JobStatus.queued,
      progress := 0 }

/-! ### Fixtures and observation helpers -/

/-- A one-variant text template. -/
def tplA : Template := { tid := "t1", ttype := "text", content := "A" }

/-- A second text template, used as the mutation payload in the clone
counterexample. -/
def tplB : Template := { tid := "t2", ttype := "text", content := "B" }

/-- A job in chat 1 as both creation paths build it: `status=queued`,
`progress=0`, no schedule. -/
def mkJob (tpls : List Template) (count : Int) (rep : Option String) : Job :=
  { job_id := "j1", created_by := "u1", chat_id := 1, templates := tpls,
    count := count, delay := 2, status := JobStatus.queued, progress := 0,
    start_at := none, repeatPolicy := rep, target_name := "",
    target_username := none, target_first_name := none, target_last_name := none }

/-- Empty observation trace. -/
def emptyTrace : Trace :=
  { attempts := [], sent := [], progressLog := [], effects := [], logs := [] }

/-- Fresh state holding one job under id `"j1"`, an empty daily-counter
table, the default `max_count = 200`, and the given per-day cap. -/
def mkSys (job : Job) (cap : Nat) : Sys :=
  { st := { jobs := [("j1", job)], daily := [], maxCount := 200, perDayCap := cap },
    tr := emptyTrace }

/-- No external button presses. -/
def noActs : Nat → List ExtAction := fun _ => []

/-- Transport that always delivers. -/
def okAll : Nat → Bool := fun _ => true

/-- Transport that always fails. -/
def failAll : Nat → Bool := fun _ => false

/-- Boolean check that a list of persisted progress values never
decreases. -/
def nonDecr : List Nat → Bool
  | [] => true
  | [_] => true
  | a :: b :: rest => decide (a ≤ b) && nonDecr (b :: rest)

/-- The run behind claims C3 and C4: a one-unit job whose only delivery
attempt fails. -/
def failRun : Sys :=
  runJob failAll noActs "d" "t" 0 "j1" (mkSys (mkJob [tplA] 1 none) 1000)

/-- The run behind claim C2: a three-unit job paused after its first
unit (the pause lands before iteration 1's status re-read). -/
def pauseRun : Sys :=
  startJob okAll (fun i => if i = 1 then [ExtAction.pauseReq] else []) [] "d" "t" 0 "j1"
    (mkSys (mkJob [tplA] 3 none) 1000)

/-! ### Helper lemmas -/

@[simp] lemma logEv_st (s : Sys) (e : String) : (logEv s e).st = s.st := rfl

@[simp] lemma logEv_attempts (s : Sys) (e : String) :
    (logEv s e).tr.attempts = s.tr.attempts := rfl

@[simp] lemma logEv_sent (s : Sys) (e : String) : (logEv s e).tr.sent = s.tr.sent := rfl

@[simp] lemma logEv_progressLog (s : Sys) (e : String) :
    (logEv s e).tr.progressLog = s.tr.progressLog := rfl

@[simp] lemma logEv_effects (s : Sys) (e : String) :
    (logEv s e).tr.effects = s.tr.effects := rfl

@[simp] lemma saveState_st (s : Sys) (jid : String) : (saveState s jid).st = s.st := rfl

@[simp] lemma saveState_attempts (s : Sys) (jid : String) :
    (saveState s jid).tr.attempts = s.tr.attempts := rfl

@[simp] lemma saveState_sent (s : Sys) (jid : String) :
    (saveState s jid).tr.sent = s.tr.sent := rfl

@[simp] lemma saveState_logs (s : Sys) (jid : String) :
    (saveState s jid).tr.logs = s.tr.logs := rfl

@[simp] lemma updateJob_tr (s : Sys) (jid : String) (f : Job → Job) :
    (updateJob s jid f).tr = s.tr := rfl

@[simp] lemma updateJob_daily (s : Sys) (jid : String) (f : Job → Job) :
    (updateJob s jid f).st.daily = s.st.daily := rfl

@[simp] lemma updateJob_perDayCap (s : Sys) (jid : String) (f : Job → Job) :
    (updateJob s jid f).st.perDayCap = s.st.perDayCap := rfl

@[simp] lemma updateJob_maxCount (s : Sys) (jid : String) (f : Job → Job) :
    (updateJob s jid f).st.maxCount = s.st.maxCount := rfl

@[simp] lemma incrementDailyCount_jobs (s : Sys) (jid : String) (chat : Int) (a : Nat) :
    (incrementDailyCount s jid chat a).st.jobs = s.st.jobs := rfl

@[simp] lemma incrementDailyCount_attempts (s : Sys) (jid : String) (chat : Int) (a : Nat) :
    (incrementDailyCount s jid chat a).tr.attempts = s.tr.attempts := rfl

@[simp] lemma incrementDailyCount_sent (s : Sys) (jid : String) (chat : Int) (a : Nat) :
    (incrementDailyCount s jid chat a).tr.sent = s.tr.sent := rfl

@[simp] lemma recordAttempt_st (s : Sys) (i : Nat) (ok : Bool) (chat : Int) (text : String) :
    (recordAttempt s i ok chat text).st = s.st := by
  unfold recordAttempt; split <;> rfl

@[simp] lemma recordAttempt_progressLog (s : Sys) (i : Nat) (ok : Bool) (chat : Int)
    (text : String) : (recordAttempt s i ok chat text).tr.progressLog = s.tr.progressLog := by
  unfold recordAttempt; split <;> rfl

@[simp] lemma findJob_updateJobs (f : Job → Job) (jobs : List (String × Job)) (jid : String) :
    findJob (updateJobs f jobs jid) jid = (findJob jobs jid).map f := by
  induction jobs with
  | nil => rfl
  | cons p rest ih =>
      obtain ⟨k, v⟩ := p
      by_cases hk : k = jid
      · simp [updateJobs, findJob, hk]
      · simp [updateJobs, findJob, hk, ih]

@[simp] lemma findDaily_setDaily_self (l : List (Int × Nat)) (chat : Int) (v : Nat) :
    findDaily (setDaily l chat v) chat = some v := by
  induction l with
  | nil => simp [setDaily, findDaily]
  | cons p rest ih =>
      obtain ⟨k, x⟩ := p
      by_cases hk : k = chat
      · simp [setDaily, findDaily, hk]
      · simp [setDaily, findDaily, hk, ih]

lemma getDaily_incrementDailyCount (s : Sys) (jid : String) (chat : Int) (a : Nat) :
    getDaily (incrementDailyCount s jid chat a).st chat = getDaily s.st chat + a := by
  simp [incrementDailyCount, getDaily]

@[simp] lemma getDaily_updateJob (s : Sys) (jid : String) (f : Job → Job) (chat : Int) :
    getDaily (updateJob s jid f).st chat = getDaily s.st chat := rfl

@[simp] lemma updateJob_jobs (s : Sys) (jid : String) (f : Job → Job) :
    (updateJob s jid f).st.jobs = updateJobs f s.st.jobs jid := rfl

/-! ### Concrete runs used by counterexamples -/

/-- The run behind claim C1: `targetCount = 5` against a per-day cap of
2, started through `start_job` on a fresh day (daily count 0). -/
def capRun : Sys :=
  startJob okAll noActs [] "d" "t" 0 "j1" (mkSys (mkJob [tplA] 5 none) 2)

/-- The run behind claim C5: a one-unit job whose templates list is
empty, with a working transport. -/
def noTplRun : Sys :=
  runJob okAll noActs "d" "t" 0 "j1" (mkSys (mkJob [] 1 none) 1000)

/-- The run behind claim C7's counterexample: a one-unit
`repeat=daily` job run to natural completion. -/
def repeatRun : Sys :=
  runJob okAll noActs "d" "t" 0 "j1" (mkSys (mkJob [tplA] 1 (some "daily")) 1000)

/-! ### Claims -/

/-- C1 counterexample: with a daily cap of 2 and `targetCount = 5`, the
job does NOT send 2 units and stop at progress 2; `start_job`'s
projected-cap pre-check (`get_daily_count + count > cap`, lines 669-670)
stops it at progress 0 before any transport attempt. -/
theorem c1_counterexample :
    jobStatusOf capRun "j1" = some JobStatus.stopped ∧
    jobProgressOf capRun "j1" = some 0 ∧
    jobProgressOf capRun "j1" ≠ some 2 ∧
    capRun.tr.attempts = [] ∧
    capRun.tr.sent = [] ∧
    capRun.tr.logs = ["job_start_initiated", "job_blocked_by_group_cap"] := by
  decide

/-- C1 (amended): whenever the current daily count plus the job's full
count exceeds the per-day cap, `start_job` stops the job at its current
progress before the worker ever runs: status becomes `stopped` and no
transport attempt is made. -/
theorem c1_start_blocked (sendOk : Nat → Bool) (sched : Nat → List ExtAction)
    (waitActs : List ExtAction) (d t : String) (now : Nat) (jid : String) (s : Sys) (job : Job)
    (hj : findJob s.st.jobs jid = some job)
    (hrun : ¬ job.status = JobStatus.running)
    (hsa : job.start_at = none)
    (hcap : (s.st.perDayCap : Int) < (getDaily s.st job.chat_id : Int) + job.count) :
    jobStatusOf (startJob sendOk sched waitActs d t now jid s) jid = some JobStatus.stopped ∧
    jobProgressOf (startJob sendOk sched waitActs d t now jid s) jid = some job.progress ∧
    (startJob sendOk sched waitActs d t now jid s).tr.attempts = s.tr.attempts ∧
    (startJob sendOk sched waitActs d t now jid s).tr.sent = s.tr.sent := by
  simp only [startJob, hj, hrun, if_false, hsa]
  simp only [startCapAndRun, logEv_st, saveState_st, getDaily_updateJob, updateJob_perDayCap]
  rw [if_pos hcap]
  refine ⟨?_, ?_, ?_, ?_⟩ <;>
    simp [jobStatusOf, jobProgressOf, hj]

/-- C1 witness: the amended theorem applied at the cap-2/count-5 input. -/
theorem c1_start_blocked_witness :
    (findJob (mkSys (mkJob [tplA] 5 none) 2).st.jobs "j1" = some (mkJob [tplA] 5 none) ∧
      ¬ (mkJob [tplA] 5 none).status = JobStatus.running ∧
      (mkJob [tplA] 5 none).start_at = none ∧
      (((mkSys (mkJob [tplA] 5 none) 2).st.perDayCap : Int) <
        (getDaily (mkSys (mkJob [tplA] 5 none) 2).st (mkJob [tplA] 5 none).chat_id : Int) +
          (mkJob [tplA] 5 none).count)) ∧
    (jobStatusOf capRun "j1" = some JobStatus.stopped ∧
      jobProgressOf capRun "j1" = some (mkJob [tplA] 5 none).progress ∧
      capRun.tr.attempts = (mkSys (mkJob [tplA] 5 none) 2).tr.attempts ∧
      capRun.tr.sent = (mkSys (mkJob [tplA] 5 none) 2).tr.sent) :=
  ⟨⟨by decide, by decide, by decide, by decide⟩,
    c1_start_blocked okAll noActs [] "d" "t" 0 "j1" (mkSys (mkJob [tplA] 5 none) 2)
      (mkJob [tplA] 5 none) (by decide) (by decide) (by decide) (by decide)⟩

/-- C2: code bug, evaluated at the failing input.  A running 3-unit job
is paused after unit 0; the worker observes the pause at the next
iteration and exits (logging `job_paused_or_stopped`, not re-sending
unit 0 and not sending unit 1), but the `finally` block of `run_job`
(lines 737-741) only excludes `stopped`, so it overwrites the persisted
`paused` status with `finished` — contradicting the spec's "exits
without marking finished". -/
theorem c2_pause_marks_finished :
    jobStatusOf pauseRun "j1" = some JobStatus.finished ∧
    jobStatusOf pauseRun "j1" ≠ some JobStatus.paused ∧
    jobProgressOf pauseRun "j1" = some 1 ∧
    pauseRun.tr.sent = [(1, "A")] ∧
    pauseRun.tr.logs =
      ["job_start_initiated", "job_running", "sent", "job_paused",
       "job_paused_or_stopped", "job_finished"] := by
  decide

/-- C3 counterexample: for a unit whose delivery fails, the worker makes
exactly ONE transport call (no retry of the same unit happens), yet the
claim requires a second, retry attempt.  Progress still advances and the
job finishes. -/
theorem c3_counterexample :
    failRun.tr.attempts = [(0, false)] ∧
    failRun.tr.attempts.length ≠ 2 ∧
    jobProgressOf failRun "j1" = some 1 ∧
    jobStatusOf failRun "j1" = some JobStatus.finished ∧
    failRun.tr.logs = ["job_running", "send_failed", "job_finished"] := by
  decide

/-- C3 (amended): on delivery failure the worker logs `send_failed` and
moves on with NO retry — the failing unit gets exactly one transport
attempt — and progress still advances by one. -/
theorem c3_no_retry (sendOk : Nat → Bool) (d t jid : String) (i : Nat) (s : Sys) (job : Job)
    (hj : findJob s.st.jobs jid = some job)
    (hst : ¬ (job.status = JobStatus.paused ∨ job.status = JobStatus.stopped))
    (hcap : ¬ s.st.perDayCap ≤ getDaily s.st job.chat_id)
    (hfail : sendOk i = false) :
    (runIter sendOk d t jid i s).1.tr.attempts = s.tr.attempts ++ [(i, false)] ∧
    (runIter sendOk d t jid i s).1.tr.sent = s.tr.sent ∧
    jobProgressOf (runIter sendOk d t jid i s).1 jid = some (i + 1) ∧
    (runIter sendOk d t jid i s).2 = true := by
  simp only [runIter, hj, hst, if_false, hcap, hfail]
  refine ⟨?_, ?_, ?_, ?_⟩ <;>
    simp [jobProgressOf, recordAttempt, hj, Bool.false_eq_true]

/-- C3 witness: the amended theorem at the one-unit failing-transport
input. -/
theorem c3_no_retry_witness :
    (findJob (mkSys (mkJob [tplA] 1 none) 1000).st.jobs "j1" = some (mkJob [tplA] 1 none) ∧
      ¬ ((mkJob [tplA] 1 none).status = JobStatus.paused ∨
          (mkJob [tplA] 1 none).status = JobStatus.stopped) ∧
      ¬ (mkSys (mkJob [tplA] 1 none) 1000).st.perDayCap ≤
          getDaily (mkSys (mkJob [tplA] 1 none) 1000).st (mkJob [tplA] 1 none).chat_id ∧
      failAll 0 = false) ∧
    ((runIter failAll "d" "t" "j1" 0 (mkSys (mkJob [tplA] 1 none) 1000)).1.tr.attempts =
        (mkSys (mkJob [tplA] 1 none) 1000).tr.attempts ++ [(0, false)] ∧
      (runIter failAll "d" "t" "j1" 0 (mkSys (mkJob [tplA] 1 none) 1000)).1.tr.sent =
        (mkSys (mkJob [tplA] 1 none) 1000).tr.sent ∧
      jobProgressOf (runIter failAll "d" "t" "j1" 0 (mkSys (mkJob [tplA] 1 none) 1000)).1 "j1" =
        some 1 ∧
      (runIter failAll "d" "t" "j1" 0 (mkSys (mkJob [tplA] 1 none) 1000)).2 = true) :=
  ⟨⟨by decide, by decide, by decide, by decide⟩,
    c3_no_retry failAll "d" "t" "j1" 0 (mkSys (mkJob [tplA] 1 none) 1000)
      (mkJob [tplA] 1 none) (by decide) (by decide) (by decide) (by decide)⟩

/-- C4 counterexample: the failing unit was attempted (one transport
call) yet the destination's daily counter stays 0 — the consumed-even-
on-failure part of the claim does not hold, and the increment (line 727)
is a separate step from the cap check (lines 705-706), executed only
after a successful send. -/
theorem c4_counterexample :
    failRun.tr.attempts = [(0, false)] ∧
    getDaily failRun.st 1 = 0 := by
  decide

/-- C4 (amended): for an attempted unit the daily counter is incremented
exactly when the send succeeded: +1 on success, unchanged on failure;
the unit is recorded as attempted either way. -/
theorem c4_increment_on_success (sendOk : Nat → Bool) (d t jid : String) (i : Nat) (s : Sys)
    (job : Job)
    (hj : findJob s.st.jobs jid = some job)
    (hst : ¬ (job.status = JobStatus.paused ∨ job.status = JobStatus.stopped))
    (hcap : ¬ s.st.perDayCap ≤ getDaily s.st job.chat_id) :
    getDaily (runIter sendOk d t jid i s).1.st job.chat_id =
      getDaily s.st job.chat_id + (if sendOk i then 1 else 0) ∧
    (runIter sendOk d t jid i s).1.tr.attempts = s.tr.attempts ++ [(i, sendOk i)] := by
  simp only [runIter, hj, hst, if_false, hcap]
  cases hs : sendOk i
  · refine ⟨?_, ?_⟩ <;>
      simp [recordAttempt, getDaily, Bool.false_eq_true]
  · refine ⟨?_, ?_⟩ <;>
      simp [recordAttempt, incrementDailyCount, getDaily]

/-- C4 witness: the amended theorem at the failing-transport input. -/
theorem c4_increment_on_success_witness :
    (findJob (mkSys (mkJob [tplA] 1 none) 1000).st.jobs "j1" = some (mkJob [tplA] 1 none) ∧
      ¬ ((mkJob [tplA] 1 none).status = JobStatus.paused ∨
          (mkJob [tplA] 1 none).status = JobStatus.stopped) ∧
      ¬ (mkSys (mkJob [tplA] 1 none) 1000).st.perDayCap ≤
          getDaily (mkSys (mkJob [tplA] 1 none) 1000).st (mkJob [tplA] 1 none).chat_id) ∧
    (getDaily (runIter failAll "d" "t" "j1" 0 (mkSys (mkJob [tplA] 1 none) 1000)).1.st
        (mkJob [tplA] 1 none).chat_id =
      getDaily (mkSys (mkJob [tplA] 1 none) 1000).st (mkJob [tplA] 1 none).chat_id +
        (if failAll 0 then 1 else 0) ∧
      (runIter failAll "d" "t" "j1" 0 (mkSys (mkJob [tplA] 1 none) 1000)).1.tr.attempts =
        (mkSys (mkJob [tplA] 1 none) 1000).tr.attempts ++ [(0, failAll 0)]) :=
  ⟨⟨by decide, by decide, by decide⟩,
    c4_increment_on_success failAll "d" "t" "j1" 0 (mkSys (mkJob [tplA] 1 none) 1000)
      (mkJob [tplA] 1 none) (by decide) (by decide) (by decide)⟩

/-- C5 counterexample: a one-unit job with an empty templates list is
NOT stopped: the worker sends a `[No template]` placeholder message,
the daily counter is charged, progress advances to 1 and the job
finishes. -/
theorem c5_counterexample :
    jobStatusOf noTplRun "j1" = some JobStatus.finished ∧
    jobStatusOf noTplRun "j1" ≠ some JobStatus.stopped ∧
    noTplRun.tr.sent = [(1, "[No template] (job j1)")] ∧
    jobProgressOf noTplRun "j1" = some 1 ∧
    getDaily noTplRun.st 1 = 1 := by
  decide

/-- C5 (amended): when the job's templates list is empty the worker does
not treat the unit as fatal: it sends the `[No template] (job <id>)`
placeholder message instead, leaves the status untouched, and advances
progress — a silent skip-with-advance rather than a stop. -/
theorem c5_placeholder_send (sendOk : Nat → Bool) (d t jid : String) (i : Nat) (s : Sys)
    (job : Job)
    (hj : findJob s.st.jobs jid = some job)
    (hst : ¬ (job.status = JobStatus.paused ∨ job.status = JobStatus.stopped))
    (hcap : ¬ s.st.perDayCap ≤ getDaily s.st job.chat_id)
    (htpl : job.templates = [])
    (hok : sendOk i = true) :
    (runIter sendOk d t jid i s).1.tr.sent =
      s.tr.sent ++ [(job.chat_id, "[No template] (job " ++ jid ++ ")")] ∧
    jobProgressOf (runIter sendOk d t jid i s).1 jid = some (i + 1) ∧
    jobStatusOf (runIter sendOk d t jid i s).1 jid = some job.status ∧
    (runIter sendOk d t jid i s).2 = true := by
  simp only [runIter, hj, hst, if_false, hcap, htpl, hok]
  refine ⟨?_, ?_, ?_, ?_⟩ <;>
    simp [jobProgressOf, jobStatusOf, selectTemplate, recordAttempt, hj]

/-- C5 witness: the amended theorem at the empty-templates input. -/
theorem c5_placeholder_send_witness :
    (findJob (mkSys (mkJob [] 1 none) 1000).st.jobs "j1" = some (mkJob [] 1 none) ∧
      ¬ ((mkJob [] 1 none).status = JobStatus.paused ∨
          (mkJob [] 1 none).status = JobStatus.stopped) ∧
      ¬ (mkSys (mkJob [] 1 none) 1000).st.perDayCap ≤
          getDaily (mkSys (mkJob [] 1 none) 1000).st (mkJob [] 1 none).chat_id ∧
      (mkJob [] 1 none).templates = [] ∧ okAll 0 = true) ∧
    ((runIter okAll "d" "t" "j1" 0 (mkSys (mkJob [] 1 none) 1000)).1.tr.sent =
        (mkSys (mkJob [] 1 none) 1000).tr.sent ++
          [((mkJob [] 1 none).chat_id, "[No template] (job " ++ "j1" ++ ")")] ∧
      jobProgressOf (runIter okAll "d" "t" "j1" 0 (mkSys (mkJob [] 1 none) 1000)).1 "j1" =
        some 1 ∧
      jobStatusOf (runIter okAll "d" "t" "j1" 0 (mkSys (mkJob [] 1 none) 1000)).1 "j1" =
        some (mkJob [] 1 none).status ∧
      (runIter okAll "d" "t" "j1" 0 (mkSys (mkJob [] 1 none) 1000)).2 = true) :=
  ⟨⟨by decide, by decide, by decide, by decide, by decide⟩,
    c5_placeholder_send okAll "d" "t" "j1" 0 (mkSys (mkJob [] 1 none) 1000)
      (mkJob [] 1 none) (by decide) (by decide) (by decide) (by decide) (by decide)⟩

/-- C6 counterexample: the direct promo run (`runpromo_cmd`) only clamps
from above; a requested count of 0 is stored as 0, violating
`1 ≤ targetCount`. -/
theorem c6_counterexample :
    runpromoClamp 0 200 = 0 ∧ ¬ (1 ≤ runpromoClamp 0 200) := by
  decide

/-- C6 (amended): the reply-command creation path clamps the requested
count into `[1, max_count]`, but the direct promo run only enforces the
upper bound — its stored count can be below 1. -/
theorem c6_clamp (c mx : Int) (h : 1 ≤ mx) :
    1 ≤ createJobCardClamp c mx ∧ createJobCardClamp c mx ≤ mx ∧
    runpromoClamp c mx ≤ mx := by
  simp only [createJobCardClamp, runpromoClamp]
  split_ifs <;> omega

/-- C6 witness: the amended theorem at the default `max_count = 200`. -/
theorem c6_clamp_witness :
    (1 : Int) ≤ 200 ∧
    (1 ≤ createJobCardClamp 0 200 ∧ createJobCardClamp 0 200 ≤ 200 ∧
      runpromoClamp 0 200 ≤ 200) :=
  ⟨by decide, c6_clamp 0 200 (by decide)⟩

/-- C8: content selection (line 712) is a pure function of the unit
index, periodic with period `len(templates)`: the variant chosen at
index `k` equals the one chosen at `k + len(templates)` for every
non-empty variant list. -/
theorem c8_rotation_periodic (tpls : List Template) (k : Nat) (h : tpls ≠ []) :
    selectTemplate tpls k = selectTemplate tpls (k + tpls.length) := by
  have hne : tpls.isEmpty = false := by
    cases tpls with
    | nil => exact absurd rfl h
    | cons a l => rfl
  simp [selectTemplate, hne, Nat.add_mod_right]

/-- C8 witness: a one-variant list at index 3. -/
theorem c8_rotation_periodic_witness :
    ([tplA, tplB] ≠ [] ∧
      selectTemplate [tplA, tplB] 3 = selectTemplate [tplA, tplB] (3 + 2)) :=
  ⟨by decide, c8_rotation_periodic [tplA, tplB] 3 (by decide)⟩

/-- A source job record holding a reference to the single template list
in `cloneHeap0`. -/
def cloneSrc : JobRec :=
  { job_id := "j1", created_by := "u1", created_at := "t0", chat_id := 1,
    templatesRef := 0, count := 3, delay := 2, status := JobStatus.running,
    progress := 2, start_at := none, repeatPolicy := none }

/-- A heap with one template-list object at address 0. -/
def cloneHeap0 : TplHeap := { cells := [[tplA]] }

/-- C9 counterexample: `clone` copies the dict shallowly (line 544), so
the clone's `templates` entry is the same list object as the source's;
appending to the clone's list is visible through the source job — the
"shares no mutable state" part of the claim fails. -/
theorem c9_counterexample :
    (cloneJob cloneSrc "j2" "u2" "t1").templatesRef = cloneSrc.templatesRef ∧
    readTpls (appendTpl cloneHeap0 (cloneJob cloneSrc "j2" "u2" "t1").templatesRef tplB)
        cloneSrc.templatesRef
      ≠ readTpls cloneHeap0 cloneSrc.templatesRef := by
  decide

/-- C9 (amended): cloning yields a record with the fresh id, progress 0,
status `queued`, the new `created_by`/`created_at`, and every other
field copied — the templates list value-equal to the source's because
the very same list reference is copied (shallow copy), so the two
records share that mutable list. -/
theorem c9_clone_fields (job : JobRec) (newId byUser createdAt : String) (h : TplHeap) :
    (cloneJob job newId byUser createdAt).job_id = newId ∧
    (cloneJob job newId byUser createdAt).progress = 0 ∧
    (cloneJob job newId byUser createdAt).status = JobStatus.queued ∧
    (cloneJob job newId byUser createdAt).created_by = byUser ∧
    (cloneJob job newId byUser createdAt).created_at = createdAt ∧
    (cloneJob job newId byUser createdAt).count = job.count ∧
    (cloneJob job newId byUser createdAt).delay = job.delay ∧
    (cloneJob job newId byUser createdAt).chat_id = job.chat_id ∧
    (cloneJob job newId byUser createdAt).repeatPolicy = job.repeatPolicy ∧
    (cloneJob job newId byUser createdAt).start_at = job.start_at ∧
    (cloneJob job newId byUser createdAt).templatesRef = job.templatesRef ∧
    readTpls h (cloneJob job newId byUser createdAt).templatesRef =
      readTpls h job.templatesRef :=
  ⟨rfl, rfl, rfl, rfl, rfl, rfl, rfl, rfl, rfl, rfl, rfl, rfl⟩

/-- C10: the `stop` callback on any existing job — whatever its current
status — sets the status to `stopped`, keeps the record in the store,
and persists the change (the `"save"` effect) strictly before any
cancellation of a running worker task. -/
theorem c10_stop_persists_then_cancels (s : Sys) (jid : String) (job : Job)
    (taskRunning : Bool) (hj : findJob s.st.jobs jid = some job) :
    findJob (callbackStop s jid taskRunning).st.jobs jid =
      some { job with status := JobStatus.stopped } ∧
    (callbackStop s jid taskRunning).tr.effects =
      s.tr.effects ++ "save" :: (if taskRunning then ["cancel"] else []) := by
  simp only [callbackStop, hj]
  cases taskRunning
  · refine ⟨?_, ?_⟩ <;> simp [hj, saveState, logEv]
  · refine ⟨?_, ?_⟩ <;> simp [hj, saveState, logEv]

/-- C10 witness: stopping an already-finished job with a (stale) running
task handle. -/
theorem c10_stop_persists_then_cancels_witness :
    (findJob (mkSys { mkJob [tplA] 3 none with status := JobStatus.finished } 2).st.jobs "j1" =
      some { mkJob [tplA] 3 none with status := JobStatus.finished }) ∧
    (findJob
        (callbackStop (mkSys { mkJob [tplA] 3 none with status := JobStatus.finished } 2) "j1"
          true).st.jobs "j1" =
      some { { mkJob [tplA] 3 none with status := JobStatus.finished } with
          status := JobStatus.stopped } ∧
      (callbackStop (mkSys { mkJob [tplA] 3 none with status := JobStatus.finished } 2) "j1"
          true).tr.effects =
        (mkSys { mkJob [tplA] 3 none with status := JobStatus.finished } 2).tr.effects ++
          "save" :: (if true then ["cancel"] else [])) :=
  ⟨by decide,
    c10_stop_persists_then_cancels
      (mkSys { mkJob [tplA] 3 none with status := JobStatus.finished } 2) "j1"
      { mkJob [tplA] 3 none with status := JobStatus.finished } true (by decide)⟩

/-! ### Monotonicity machinery for claim C7 -/

lemma nonDecr_append (l : List Nat) (k : Nat) :
    nonDecr l = true → (∀ x ∈ l, x ≤ k) → nonDecr (l ++ [k]) = true := by
  induction l with
  | nil => intro _ _; rfl
  | cons a l ih =>
      intro hnd hb
      cases l with
      | nil =>
          have ha : a ≤ k := hb a (by simp)
          simp [nonDecr, ha]
      | cons b l' =>
          have h1 : (decide (a ≤ b) && nonDecr (b :: l')) = true := hnd
          rw [Bool.and_eq_true] at h1
          have h2 : nonDecr ((b :: l') ++ [k]) = true :=
            ih h1.2 (fun x hx => hb x (List.mem_cons_of_mem _ hx))
          show (decide (a ≤ b) && nonDecr (b :: (l' ++ [k]))) = true
          rw [Bool.and_eq_true]
          exact ⟨h1.1, h2⟩

/-- Worker invariant: the observed job exists with count `c`, no repeat
policy and progress `p`, and the persisted progress values so far are
non-decreasing and bounded by `p`. -/
def WInv (jid : String) (c : Int) (s : Sys) (p : Nat) : Prop :=
  (∃ job, findJob s.st.jobs jid = some job ∧ job.count = c ∧
      job.repeatPolicy = none ∧ job.progress = p) ∧
  nonDecr s.tr.progressLog = true ∧ (∀ x ∈ s.tr.progressLog, x ≤ p)

lemma WInv_logEv (jid : String) (c : Int) (s : Sys) (p : Nat) (e : String)
    (h : WInv jid c s p) : WInv jid c (logEv s e) p := by
  obtain ⟨⟨job, hj, hc, hr, hp⟩, hnd, hb⟩ := h
  exact ⟨⟨job, hj, hc, hr, hp⟩, hnd, hb⟩

lemma WInv_saveState (jid : String) (c : Int) (s : Sys) (p : Nat)
    (h : WInv jid c s p) : WInv jid c (saveState s jid) p := by
  obtain ⟨⟨job, hj, hc, hr, hp⟩, hnd, hb⟩ := h
  have hlog : (saveState s jid).tr.progressLog = s.tr.progressLog ++ [p] := by
    simp [saveState, hj, hp]
  refine ⟨⟨job, hj, hc, hr, hp⟩, ?_, ?_⟩
  · rw [hlog]
    exact nonDecr_append _ _ hnd hb
  · rw [hlog]
    intro x hx
    rcases List.mem_append.mp hx with h1 | h1
    · exact hb x h1
    · simp only [List.mem_singleton] at h1
      omega

lemma WInv_updateStatus (jid : String) (c : Int) (s : Sys) (p : Nat) (st' : JobStatus)
    (h : WInv jid c s p) :
    WInv jid c (updateJob s jid (fun j => { j with status := st' })) p := by
  obtain ⟨⟨job, hj, hc, hr, hp⟩, hnd, hb⟩ := h
  refine ⟨⟨{ job with status := st' }, ?_, hc, hr, hp⟩, hnd, hb⟩
  simp [hj]

lemma WInv_setProgress (jid : String) (c : Int) (s : Sys) (p i : Nat) (hpi : p ≤ i + 1)
    (h : WInv jid c s p) :
    WInv jid c (updateJob s jid (fun j => { j with progress := i + 1 })) (i + 1) := by
  obtain ⟨⟨job, hj, hc, hr, _⟩, hnd, hb⟩ := h
  refine ⟨⟨{ job with progress := i + 1 }, ?_, hc, hr, rfl⟩, hnd, ?_⟩
  · simp [hj]
  · intro x hx
    exact le_trans (hb x hx) hpi

lemma WInv_incDaily (jid : String) (c : Int) (s : Sys) (p : Nat) (chat : Int) (a : Nat)
    (h : WInv jid c s p) : WInv jid c (incrementDailyCount s jid chat a) p := by
  obtain ⟨⟨job, hj, hc, hr, hp⟩, hnd, hb⟩ := h
  have h1 : WInv jid c
      { s with st := { s.st with
          daily := setDaily s.st.daily chat (getDaily s.st chat + a) } } p :=
    ⟨⟨job, hj, hc, hr, hp⟩, hnd, hb⟩
  exact WInv_saveState _ _ _ _ h1

lemma WInv_recordAttempt (jid : String) (c : Int) (s : Sys) (p i : Nat) (ok : Bool)
    (chat : Int) (text : String) (h : WInv jid c s p) :
    WInv jid c (recordAttempt s i ok chat text) p := by
  obtain ⟨⟨job, hj, hc, hr, hp⟩, hnd, hb⟩ := h
  refine ⟨⟨job, ?_, hc, hr, hp⟩, ?_, ?_⟩
  · rw [recordAttempt_st]; exact hj
  · rw [recordAttempt_progressLog]; exact hnd
  · rw [recordAttempt_progressLog]; exact hb

lemma WInv_callbackPause (jid : String) (c : Int) (s : Sys) (p : Nat)
    (h : WInv jid c s p) : WInv jid c (callbackPause s jid) p := by
  obtain ⟨⟨job, hj, hc, hr, hp⟩, hnd, hb⟩ := h
  simp only [callbackPause, hj]
  by_cases hs : job.status = JobStatus.running
  · rw [if_pos hs]
    exact WInv_logEv _ _ _ _ _
      (WInv_saveState _ _ _ _ (WInv_updateStatus _ _ _ _ _ ⟨⟨job, hj, hc, hr, hp⟩, hnd, hb⟩))
  · rw [if_neg hs]
    exact ⟨⟨job, hj, hc, hr, hp⟩, hnd, hb⟩

lemma WInv_callbackStop (jid : String) (c : Int) (s : Sys) (p : Nat) (tb : Bool)
    (h : WInv jid c s p) : WInv jid c (callbackStop s jid tb) p := by
  obtain ⟨⟨job, hj, hc, hr, hp⟩, hnd, hb⟩ := h
  simp only [callbackStop, hj]
  have h1 : WInv jid c
      (logEv (saveState (updateJob s jid fun j => { j with status := JobStatus.stopped }) jid)
        "job_stopped") p :=
    WInv_logEv _ _ _ _ _
      (WInv_saveState _ _ _ _ (WInv_updateStatus _ _ _ _ _ ⟨⟨job, hj, hc, hr, hp⟩, hnd, hb⟩))
  cases tb
  · simpa using h1
  · obtain ⟨⟨job', hj', hc', hr', hp'⟩, hnd', hb'⟩ := h1
    exact ⟨⟨job', hj', hc', hr', hp'⟩, hnd', hb'⟩

lemma WInv_applyActions (jid : String) (c : Int) (p : Nat) (acts : List ExtAction) :
    ∀ s, WInv jid c s p → WInv jid c (applyActions acts jid s) p := by
  induction acts with
  | nil => intro s h; exact h
  | cons a rest ih =>
      intro s h
      have h1 : WInv jid c
          (match a with
           | ExtAction.pauseReq => callbackPause s jid
           | ExtAction.stopReq => callbackStop s jid true) p := by
        cases a
        · exact WInv_callbackPause _ _ _ _ h
        · exact WInv_callbackStop _ _ _ _ _ h
      exact ih _ h1

lemma WInv_runIter (sendOk : Nat → Bool) (d t jid : String) (c : Int) (i : Nat) (s : Sys)
    (h : WInv jid c s i) :
    WInv jid c (runIter sendOk d t jid i s).1
      (if (runIter sendOk d t jid i s).2 then i + 1 else i) := by
  obtain ⟨⟨job, hj, hc, hr, hp⟩, hnd, hb⟩ := h
  have hW : WInv jid c s i := ⟨⟨job, hj, hc, hr, hp⟩, hnd, hb⟩
  simp only [runIter, hj]
  by_cases h1 : job.status = JobStatus.paused ∨ job.status = JobStatus.stopped
  · rw [if_pos h1]
    simpa using WInv_logEv _ _ _ _ _ (WInv_saveState _ _ _ _ hW)
  · rw [if_neg h1]
    by_cases h2 : s.st.perDayCap ≤ getDaily s.st job.chat_id
    · rw [if_pos h2]
      simpa using WInv_logEv _ _ _ _ _
        (WInv_saveState _ _ _ _ (WInv_updateStatus _ _ _ _ _ hW))
    · rw [if_neg h2]
      have h3 : WInv jid c
          (recordAttempt s i (sendOk i) job.chat_id
            (match selectTemplate job.templates i with
             | some tpl => renderPlaceholders tpl.content job d t
             | none => "[No template] (job " ++ jid ++ ")")) i :=
        WInv_recordAttempt _ _ _ _ _ _ _ _ hW
      have h4 : WInv jid c
          (if sendOk i then
            logEv (incrementDailyCount (recordAttempt s i (sendOk i) job.chat_id
              (match selectTemplate job.templates i with
               | some tpl => renderPlaceholders tpl.content job d t
               | none => "[No template] (job " ++ jid ++ ")")) jid job.chat_id 1) "sent"
          else
            logEv (recordAttempt s i (sendOk i) job.chat_id
              (match selectTemplate job.templates i with
               | some tpl => renderPlaceholders tpl.content job d t
               | none => "[No template] (job " ++ jid ++ ")")) "send_failed") i := by
        by_cases h5 : sendOk i = true
        · rw [if_pos h5]
          exact WInv_logEv _ _ _ _ _ (WInv_incDaily _ _ _ _ _ _ h3)
        · rw [if_neg h5]
          exact WInv_logEv _ _ _ _ _ h3
      exact WInv_saveState _ _ _ _ (WInv_setProgress _ _ _ _ _ (Nat.le_succ i) h4)

lemma WInv_runLoopAux (sendOk : Nat → Bool) (sched : Nat → List ExtAction) (d t jid : String)
    (c : Int) :
    ∀ rem i s, WInv jid c s i →
      ∃ p, WInv jid c (runLoopAux sendOk sched d t jid i rem s) p ∧ i ≤ p ∧ p ≤ i + rem := by
  intro rem
  induction rem with
  | zero =>
      intro i s h
      exact ⟨i, h, le_refl i, by omega⟩
  | succ rem ih =>
      intro i s h
      have h1 := WInv_applyActions jid c i (sched i) s h
      have h2 := WInv_runIter sendOk d t jid c i _ h1
      by_cases hcont : (runIter sendOk d t jid i (applyActions (sched i) jid s)).2 = true
      · rw [hcont] at h2
        simp only [if_true] at h2
        obtain ⟨p, hp, hip, hpr⟩ := ih (i + 1) _ h2
        refine ⟨p, ?_, by omega, by omega⟩
        show WInv jid c
          (if (runIter sendOk d t jid i (applyActions (sched i) jid s)).2 then
            runLoopAux sendOk sched d t jid (i + 1) rem
              (runIter sendOk d t jid i (applyActions (sched i) jid s)).1
          else (runIter sendOk d t jid i (applyActions (sched i) jid s)).1) p
        rw [hcont]
        simpa using hp
      · have hfalse : (runIter sendOk d t jid i (applyActions (sched i) jid s)).2 = false := by
          simpa using hcont
        rw [hfalse] at h2
        simp at h2
        refine ⟨i, ?_, le_refl i, by omega⟩
        show WInv jid c
          (if (runIter sendOk d t jid i (applyActions (sched i) jid s)).2 then
            runLoopAux sendOk sched d t jid (i + 1) rem
              (runIter sendOk d t jid i (applyActions (sched i) jid s)).1
          else (runIter sendOk d t jid i (applyActions (sched i) jid s)).1) i
        rw [hfalse]
        simpa using h2

lemma WInv_runFinally (now : Nat) (jid : String) (c : Int) (s : Sys) (p : Nat)
    (h : WInv jid c s p) : WInv jid c (runFinally now jid s) p := by
  obtain ⟨⟨job, hj, hc, hr, hp⟩, hnd, hb⟩ := h
  have hW : WInv jid c s p := ⟨⟨job, hj, hc, hr, hp⟩, hnd, hb⟩
  simp only [runFinally, hj]
  by_cases hs : job.status ≠ JobStatus.stopped
  · rw [if_pos hs]
    have hj1 : findJob
        (logEv (saveState (updateJob s jid fun j => { j with status := JobStatus.finished }) jid)
          "job_finished").st.jobs jid = some { job with status := JobStatus.finished } := by
      simp [hj]
    simp only [hj1, hr]
    simp only [reduceCtorEq, or_self, if_false]
    exact WInv_logEv _ _ _ _ _
      (WInv_saveState _ _ _ _ (WInv_updateStatus _ _ _ _ _ hW))
  · rw [if_neg hs]
    simp only [hj, hr]
    simp only [reduceCtorEq, or_self, if_false]
    exact hW

/-- C7 counterexample: a `repeat=daily` job run to natural completion
has persisted progress values 0,0,1,1,0 — the re-arm in the `finally`
block (line 752) resets progress to 0, so the stored progress is not
non-decreasing over time. -/
theorem c7_counterexample :
    repeatRun.tr.progressLog = [0, 0, 1, 1, 0] ∧
    nonDecr repeatRun.tr.progressLog = false := by
  decide


/-- One job-directed operation of the system: a pause press, a stop
press (with or without a live worker task to cancel), a start press
(with a transport, a schedule of presses observed by the worker, and
the actions landing during a scheduled-start wait), or a bare worker
run. -/
inductive BotOp where
  | pausePress
  | stopPress (taskRunning : Bool)
  | startPress (sendOk : Nat → Bool) (sched : Nat → List ExtAction)
      (waitActs : List ExtAction) (dateS timeS : String) (now : Nat)
  | workerRun (sendOk : Nat → Bool) (sched : Nat → List ExtAction)
      (dateS timeS : String) (now : Nat)

/-- Apply one operation to the state. -/
def applyOp (jid : String) (s : Sys) : BotOp → Sys
  | BotOp.pausePress => callbackPause s jid
  | BotOp.stopPress tb => callbackStop s jid tb
  | BotOp.startPress sendOk sched waitActs d t now =>
      startJob sendOk sched waitActs d t now jid s
  | BotOp.workerRun sendOk sched d t now => runJob sendOk sched d t now jid s

/-- Apply a whole sequence of operations. -/
def applyOps (jid : String) : List BotOp → Sys → Sys
  | [], s => s
  | op :: ops, s => applyOps jid ops (applyOp jid s op)

/-- The progress property carried across operations: some `p` bounds
the job's record and trace as in `WInv`, and `p` itself respects the
record invariant `progress ≤ targetCount`. -/
def ProgressInv (jid : String) (c : Int) (s : Sys) : Prop :=
  ∃ p, WInv jid c s p ∧ (p : Int) ≤ c

lemma ProgressInv_runJob (sendOk : Nat → Bool) (sched : Nat → List ExtAction) (d t : String)
    (now : Nat) (jid : String) (c : Int) (s : Sys)
    (h : ProgressInv jid c s) : ProgressInv jid c (runJob sendOk sched d t now jid s) := by
  obtain ⟨p, hW, hpc⟩ := h
  obtain ⟨⟨job, hj, hc, hr, hp⟩, hnd, hb⟩ := hW
  have hW' : WInv jid c s p := ⟨⟨job, hj, hc, hr, hp⟩, hnd, hb⟩
  have h1 : WInv jid c
      (logEv (saveState (updateJob s jid fun j => { j with status := JobStatus.running }) jid)
        "job_running") job.progress := by
    rw [hp]
    exact WInv_logEv _ _ _ _ _ (WInv_saveState _ _ _ _ (WInv_updateStatus _ _ _ _ _ hW'))
  obtain ⟨p', hinv, hip, hpr⟩ := WInv_runLoopAux sendOk sched d t jid c
    ((min job.count s.st.maxCount - (job.progress : Int)).toNat) job.progress _ h1
  have hfin := WInv_runFinally now jid c _ p' hinv
  have hgoal :
      runJob sendOk sched d t now jid s =
        runFinally now jid
          (runLoopAux sendOk sched d t jid job.progress
            (min job.count s.st.maxCount - (job.progress : Int)).toNat
            (logEv (saveState (updateJob s jid fun j => { j with status := JobStatus.running })
              jid) "job_running")) := by
    simp only [runJob, hj]
  rw [hgoal]
  refine ⟨p', hfin, ?_⟩
  have h2 : ((min job.count s.st.maxCount - (job.progress : Int)).toNat : Int) =
      max (min job.count s.st.maxCount - (job.progress : Int)) 0 :=
    Int.toNat_eq_max _
  have h3 : min job.count s.st.maxCount ≤ job.count := min_le_left _ _
  have h4 : (p' : Int) ≤ (job.progress : Int) +
      ((min job.count s.st.maxCount - (job.progress : Int)).toNat : Int) := by
    exact_mod_cast hpr
  have h5 : (job.progress : Int) = (p : Int) := by exact_mod_cast hp
  omega

lemma ProgressInv_startCapAndRun (sendOk : Nat → Bool) (sched : Nat → List ExtAction)
    (d t : String) (now : Nat) (jid : String) (c : Int) (jobW : Job) (s : Sys)
    (h : ProgressInv jid c s) :
    ProgressInv jid c (startCapAndRun sendOk sched d t now jid jobW s) := by
  obtain ⟨p, hW, hpc⟩ := h
  unfold startCapAndRun
  by_cases hcap : (s.st.perDayCap : Int) < (getDaily s.st jobW.chat_id : Int) + jobW.count
  · rw [if_pos hcap]
    exact ⟨p, WInv_logEv _ _ _ _ _
      (WInv_saveState _ _ _ _ (WInv_updateStatus _ _ _ _ _ hW)), hpc⟩
  · rw [if_neg hcap]
    exact ProgressInv_runJob _ _ _ _ _ _ _ _ ⟨p, hW, hpc⟩

lemma ProgressInv_startJob (sendOk : Nat → Bool) (sched : Nat → List ExtAction)
    (waitActs : List ExtAction) (d t : String) (now : Nat) (jid : String) (c : Int) (s : Sys)
    (h : ProgressInv jid c s) :
    ProgressInv jid c (startJob sendOk sched waitActs d t now jid s) := by
  obtain ⟨p, hW, hpc⟩ := h
  obtain ⟨⟨job, hj, hc, hr, hp⟩, hnd, hb⟩ := hW
  have hW' : WInv jid c s p := ⟨⟨job, hj, hc, hr, hp⟩, hnd, hb⟩
  simp only [startJob, hj]
  by_cases hs : job.status = JobStatus.running
  · rw [if_pos hs]
    exact ⟨p, hW', hpc⟩
  · rw [if_neg hs]
    have h1 : WInv jid c
        (logEv (saveState (updateJob s jid fun j => { j with status := JobStatus.queued_to_run })
          jid) "job_start_initiated") p :=
      WInv_logEv _ _ _ _ _ (WInv_saveState _ _ _ _ (WInv_updateStatus _ _ _ _ _ hW'))
    cases hsa : job.start_at with
    | none =>
        exact ProgressInv_startCapAndRun _ _ _ _ _ _ _ _ _ ⟨p, h1, hpc⟩
    | some tt =>
        have h2 := WInv_applyActions jid c p waitActs _ h1
        obtain ⟨⟨job2, hj2, hc2, hr2, hp2⟩, hnd2, hb2⟩ := h2
        have h2' : WInv jid c
            (applyActions waitActs jid
              (logEv (saveState (updateJob s jid fun j =>
                { j with status := JobStatus.queued_to_run }) jid) "job_start_initiated")) p :=
          ⟨⟨job2, hj2, hc2, hr2, hp2⟩, hnd2, hb2⟩
        simp only [hj2]
        by_cases hs2 : job2.status = JobStatus.stopped
        · rw [if_pos hs2]
          exact ⟨p, WInv_logEv _ _ _ _ _ h2', hpc⟩
        · rw [if_neg hs2]
          exact ProgressInv_startCapAndRun _ _ _ _ _ _ _ _ _ ⟨p, h2', hpc⟩

lemma ProgressInv_applyOp (jid : String) (c : Int) (s : Sys) (op : BotOp)
    (h : ProgressInv jid c s) : ProgressInv jid c (applyOp jid s op) := by
  cases op with
  | pausePress =>
      obtain ⟨p, hW, hpc⟩ := h
      exact ⟨p, WInv_callbackPause _ _ _ _ hW, hpc⟩
  | stopPress tb =>
      obtain ⟨p, hW, hpc⟩ := h
      exact ⟨p, WInv_callbackStop _ _ _ _ _ hW, hpc⟩
  | startPress sendOk sched waitActs d t now =>
      exact ProgressInv_startJob _ _ _ _ _ _ _ _ _ h
  | workerRun sendOk sched d t now =>
      exact ProgressInv_runJob _ _ _ _ _ _ _ _ h

lemma ProgressInv_applyOps (jid : String) (c : Int) (ops : List BotOp) :
    ∀ s, ProgressInv jid c s → ProgressInv jid c (applyOps jid ops s) := by
  induction ops with
  | nil => intro s h; exact h
  | cons op ops ih =>
      intro s h
      exact ih _ (ProgressInv_applyOp _ _ _ _ h)

/-- C7 (amended): for every job without a repeat policy whose record
satisfies the creation invariant `progress ≤ targetCount` (and whose
previously persisted progress values are non-decreasing and bounded by
the current progress — trivially so for a fresh observation), over
EVERY sequence of operations — start presses, worker runs with any
transport outcomes and any schedules of pause/stop presses, including
pause-and-resume at any progress — the persisted progress values stay
non-decreasing and never exceed the job's targetCount.  Only the
repeat re-arm writes a smaller progress. -/
theorem c7_progress_monotone (ops : List BotOp) (jid : String) (s : Sys) (job : Job)
    (hj : findJob s.st.jobs jid = some job)
    (hrep : job.repeatPolicy = none)
    (hcount : (job.progress : Int) ≤ job.count)
    (hnd : nonDecr s.tr.progressLog = true)
    (hb : ∀ x ∈ s.tr.progressLog, x ≤ job.progress) :
    nonDecr (applyOps jid ops s).tr.progressLog = true ∧
    ∀ x ∈ (applyOps jid ops s).tr.progressLog, (x : Int) ≤ job.count := by
  have h0 : ProgressInv jid job.count s :=
    ⟨job.progress, ⟨⟨job, hj, rfl, hrep, rfl⟩, hnd, hb⟩, hcount⟩
  obtain ⟨p, ⟨⟨job', hj', hc', hr', hp'⟩, hnd', hb'⟩, hpc⟩ :=
    ProgressInv_applyOps jid job.count ops s h0
  refine ⟨hnd', ?_⟩
  intro x hx
  have hxp : x ≤ p := hb' x hx
  have hxi : (x : Int) ≤ (p : Int) := by exact_mod_cast hxp
  omega

/-- C7 witness: the amended theorem on a three-unit job over a
two-operation sequence — a start whose worker is paused after unit 1,
then a second worker run resuming from the stored progress. -/
theorem c7_progress_monotone_witness :
    (findJob (mkSys (mkJob [tplA] 3 none) 1000).st.jobs "j1" = some (mkJob [tplA] 3 none) ∧
      (mkJob [tplA] 3 none).repeatPolicy = none ∧
      ((mkJob [tplA] 3 none).progress : Int) ≤ (mkJob [tplA] 3 none).count ∧
      nonDecr (mkSys (mkJob [tplA] 3 none) 1000).tr.progressLog = true ∧
      (∀ x ∈ (mkSys (mkJob [tplA] 3 none) 1000).tr.progressLog,
        x ≤ (mkJob [tplA] 3 none).progress)) ∧
    (nonDecr (applyOps "j1"
        [BotOp.startPress okAll (fun i => if i = 1 then [ExtAction.pauseReq] else []) [] "d" "t" 0,
         BotOp.workerRun okAll noActs "d" "t" 0]
        (mkSys (mkJob [tplA] 3 none) 1000)).tr.progressLog = true ∧
      ∀ x ∈ (applyOps "j1"
          [BotOp.startPress okAll (fun i => if i = 1 then [ExtAction.pauseReq] else []) [] "d" "t" 0,
           BotOp.workerRun okAll noActs "d" "t" 0]
          (mkSys (mkJob [tplA] 3 none) 1000)).tr.progressLog,
        (x : Int) ≤ (mkJob [tplA] 3 none).count) :=
  ⟨⟨by decide, by decide, by decide, by decide, by simp [mkSys, emptyTrace]⟩,
    c7_progress_monotone
      [BotOp.startPress okAll (fun i => if i = 1 then [ExtAction.pauseReq] else []) [] "d" "t" 0,
       BotOp.workerRun okAll noActs "d" "t" 0]
      "j1" (mkSys (mkJob [tplA] 3 none) 1000) (mkJob [tplA] 3 none)
      (by decide) (by decide) (by decide) (by decide) (by simp [mkSys, emptyTrace])⟩
